import Mathlib

/-!
Shallow embedding of `src/server.py` (assembly-hub-v2): the in-memory
state (`centers`, `documents`, `clients` dicts), the WebSocket helpers
(`broadcast`, `notify_center`), the slug generator (`make_slug`), and the
HTTP handlers (`upload_document`, `delete_document`, `create_center`,
`update_center`, `delete_center`, `assign_document`, `set_page`) and the
WebSocket handlers (`websocket` connect/disconnect, `handle_message`).

Modelling conventions:
* Python `dict`s keyed by id become insertion-ordered association lists
  (`List Center`, `List Doc`, `List Client`) whose elements carry their
  key in an `id` field; `dict.get` becomes `List.find?` on the id.
* `ws.send` either succeeds or raises; each `Client` carries an `alive`
  flag saying whether sends to it succeed, and an `inbox` accumulating
  the successfully delivered messages.
* Python `int` is arbitrary precision, so page numbers are `Int`.
* The filesystem visible to the server (`file.save` / `os.remove`) is the
  list of stored paths in `ServerState.files`.
* External collaborators (uuid generation, timestamps, the Excel/Word
  parsers) enter as parameters of the operations.
-/

structure Page where
  title : String
  html : String
deriving DecidableEq, Repr

/-- A stored document, `documents[id]` in `server.py`. -/
structure Doc where
  id : String
  name : String
  originalName : String
  type : String
  pages : List Page
  uploadedAt : String
  filePath : String
deriving DecidableEq, Repr

/-- The summary dict produced by `doc_summary`. -/
structure DocSummary where
  id : String
  name : String
  type : String
  pageCount : Nat
  uploadedAt : String
deriving DecidableEq, Repr

/-- Model of `doc_summary` from `server.py`. -/
def doc_summary (d : Doc) : DocSummary :=
  { id := d.id, name := d.name, type := d.type,
    pageCount := d.pages.length, uploadedAt := d.uploadedAt }

/-- The `{'id':…, 'name':…, 'type':…}` dict stored in `center['assignedDoc']`. -/
structure AssignedDoc where
  id : String
  name : String
  type : String
deriving DecidableEq, Repr

/-- A center, `centers[id]` in `server.py`. -/
structure Center where
  id : String
  name : String
  slug : String
  color : String
  assignedDoc : Option AssignedDoc
  currentPage : Int
  connected : Bool
  createdAt : String
deriving DecidableEq, Repr

/-- Outbound WebSocket messages (the JSON payloads sent by the server). -/
inductive Msg where
  | INIT (centers : List Center) (documents : List DocSummary)
  | CENTER_ADDED (center : Center)
  | CENTER_UPDATED (center : Center)
  | CENTER_DELETED (id : String)
  | DOCUMENT_ADDED (document : DocSummary)
  | DOCUMENT_DELETED (id : String)
  | DOCUMENT_ASSIGNED (document : Doc) (currentPage : Int)
  | DOCUMENT_REMOVED
  | PAGE_CHANGE (page : Int) (totalPages : Nat)
deriving DecidableEq, Repr

/-- A WebSocket client, `clients[id]` in `server.py`.  `alive` models
whether `ws.send` currently succeeds for this connection; `inbox` is the
list of messages delivered to it so far. -/
structure Client where
  id : String
  role : Option String
  centerId : Option String
  alive : Bool
  inbox : List Msg
deriving DecidableEq, Repr

/-- The whole in-memory server state plus the upload directory contents. -/
structure ServerState where
  centers : List Center
  documents : List Doc
  clients : List Client
  files : List String
deriving DecidableEq, Repr

def initState : ServerState := { centers := [], documents := [], clients := [], files := [] }

/-- A successful `ws.send(json.dumps(msg))` appends to the client's inbox. -/
def sendMsg (m : Msg) (c : Client) : Client := { c with inbox := c.inbox ++ [m] }

/-- Model of `broadcast` from `server.py`: try to send to every client; clients whose
send raised are collected in `dead` and popped from the registry. -/
def broadcast (m : Msg) (cls : List Client) : List Client :=
  cls.filterMap fun c => if c.alive then some (sendMsg m c) else none

/-- Model of `notify_center` from `server.py`: send only to clients whose `centerId`
matches; those of them whose send raised are popped from the registry. -/
def notifyCenter (cid : String) (m : Msg) (cls : List Client) : List Client :=
  cls.filterMap fun c =>
    if c.centerId = some cid then
      if c.alive then some (sendMsg m c) else none
    else some c

/-- Overwriting the entry for `c'.id` in the `centers` dict. -/
def putCenter (c' : Center) (cs : List Center) : List Center :=
  cs.map fun c => if c.id = c'.id then c' else c

/-- The regex `re.sub(r'[^a-z0-9]+','-',·)` keeps exactly the characters in `[a-z0-9]`. -/
def isSlugChar (c : Char) : Bool := c.isLower || c.isDigit

/-- One pass of `re.sub(r'[^a-z0-9]+', '-', s)`: each maximal run of
characters outside `[a-z0-9]` becomes a single hyphen.  The `inRun` flag
records whether the previous character was part of such a run. -/
def collapseRuns (inRun : Bool) : List Char → List Char
  | [] => []
  | c :: cs =>
    if isSlugChar c then c :: collapseRuns false cs
    else if inRun then collapseRuns true cs
    else '-' :: collapseRuns true cs

/-- Python `str.strip()` on the ASCII fragment: drop leading and trailing
whitespace. -/
def trimWs (l : List Char) : List Char :=
  ((l.dropWhile Char.isWhitespace).reverse.dropWhile Char.isWhitespace).reverse

/-- Python `str.strip()` as a whole-string operation. -/
def pyStrip (s : String) : String := ⟨trimWs s.data⟩

/-- Python `str.strip('-')`: drop leading and trailing hyphens. -/
def trimHyphens (l : List Char) : List Char :=
  ((l.dropWhile (· = '-')).reverse.dropWhile (· = '-')).reverse

/-- The slug base computed by the first two lines of `make_slug`:
`slug = name.lower().strip()`, `slug = re.sub(r'[^a-z0-9]+','-',slug).strip('-')`. -/
def sluggify (name : String) : String :=
  ⟨trimHyphens (collapseRuns false (trimWs (name.data.map Char.toLower)))⟩

/-- Decimal digit to character. -/
def decDigit : Nat → Char
  | 0 => '0' | 1 => '1' | 2 => '2' | 3 => '3' | 4 => '4'
  | 5 => '5' | 6 => '6' | 7 => '7' | 8 => '8' | _ => '9'

/-- Little-endian decimal digits of `n`, with explicit fuel so that the
recursion is structural (kernel-reducible).  `fuel ≥ n` suffices. -/
def decDigitsAux : Nat → Nat → List Nat
  | 0, _ => []
  | _ + 1, 0 => []
  | fuel + 1, n + 1 => (n + 1) % 10 :: decDigitsAux fuel ((n + 1) / 10)

/-- Decimal rendering of a positive natural, modelling Python's
`f"{counter}"` (the slug counter is always ≥ 2). -/
def decRepr (n : Nat) : String :=
  ⟨((decDigitsAux n n).reverse.map decDigit)⟩

/-- The candidate `f"{base}-{counter}"` tried by the `make_slug` loop. -/
def slugCandidate (base : String) (k : Nat) : String :=
  base ++ "-" ++ decRepr k

/-- The collision check `any(c['slug'] == slug for c in centers.values())`. -/
def slugTaken (cs : List Center) (s : String) : Bool :=
  cs.any fun c => c.slug = s

/-- The `while` loop of `make_slug`, fuelled.  The Python loop runs until a
free candidate is found; with fuel `cs.length + 1` a free candidate always
exists (proved below), so the `none` branch is never taken. -/
def slugLoop (cs : List Center) (base : String) : Nat → Nat → Option String
  | 0, _ => none
  | fuel + 1, counter =>
    let s := slugCandidate base counter
    if slugTaken cs s then slugLoop cs base fuel (counter + 1) else some s

/-- Model of `make_slug` from `server.py`, relative to the current `centers` values. -/
def make_slug (cs : List Center) (name : String) : String :=
  let base := sluggify name
  if slugTaken cs base then (slugLoop cs base (cs.length + 1) 2).getD base else base

/-- The upload handler writes the file with `file.save(filepath)`; the
filesystem keeps one entry per path. -/
def fsave (p : String) (files : List String) : List String :=
  if p ∈ files then files else files ++ [p]

/-- Model of `os.remove(filepath)`. -/
def fremove (p : String) (files : List String) : List String :=
  files.filter fun q => q != p

def allowedExts : List String := [".xlsx", ".xls", ".docx", ".doc"]

/-- Model of `upload_document` from `server.py`.  `ext` is
`os.path.splitext(filename)[1].lower()`; `parseResult` is the outcome of
the external parser (`parse_excel`/`parse_word`), `.error e` meaning the
parse raised an exception with message `e`.  Returns the new state and
`some errorMessage` on failure. -/
def upload_document (ext filepath : String) (parseResult : Except String (List Page))
    (docId docName origName now : String) (st : ServerState) :
    ServerState × Option String :=
  if ext ∉ allowedExts then (st, some "Only Excel and Word files allowed")
  else
    let files1 := fsave filepath st.files
    match parseResult with
    | .error e =>
      ({ st with files := fremove filepath files1 }, some ("Failed to parse file: " ++ e))
    | .ok pages =>
      let docType := if ext = ".xlsx" ∨ ext = ".xls" then "excel" else "word"
      let doc : Doc :=
        { id := docId
          name := docName
          originalName := origName
          type := docType
          pages := pages
          uploadedAt := now
          filePath := filepath }
      let cls := broadcast (.DOCUMENT_ADDED (doc_summary doc)) st.clients
      ({ st with documents := st.documents ++ [doc], files := files1, clients := cls }, none)

/-- Whether `c.assignedDoc` references `docId`. -/
def refersTo (docId : String) (c : Center) : Bool :=
  match c.assignedDoc with
  | some ad => ad.id = docId
  | none => false

/-- What `delete_document`'s cascade loop does to one center. -/
def clearIfRef (docId : String) (c : Center) : Center :=
  if refersTo docId c then { c with assignedDoc := none, currentPage := 0 } else c

/-- The `for center in centers.values():` loop of `delete_document`: clear
every center referencing `docId`, notifying its bound clients and
broadcasting the updated center as it goes. -/
def cascadeClear (docId : String) : List Center → List Client → List Center × List Client
  | [], cls => ([], cls)
  | c :: rest, cls =>
    if refersTo docId c then
      let c' := { c with assignedDoc := none, currentPage := 0 }
      let cls1 := notifyCenter c.id .DOCUMENT_REMOVED cls
      let cls2 := broadcast (.CENTER_UPDATED c') cls1
      let (rest', cls3) := cascadeClear docId rest cls2
      (c' :: rest', cls3)
    else
      let (rest', cls') := cascadeClear docId rest cls
      (c :: rest', cls')

/-- Model of `delete_document` from `server.py`. -/
def delete_document (docId : String) (st : ServerState) : Except String ServerState :=
  match st.documents.find? (fun d => d.id = docId) with
  | none => .error "Not found"
  | some doc =>
    let cc := cascadeClear docId st.centers st.clients
    let files' := fremove doc.filePath st.files
    let docs' := st.documents.filter fun d => d.id != docId
    let cls' := broadcast (.DOCUMENT_DELETED docId) cc.2
    .ok { centers := cc.1, documents := docs', clients := cls', files := files' }

/-- Model of `create_center` from `server.py`.  `newId` is the fresh `uuid4`, `now`
the timestamp; `color` is `data.get('color', '#2563eb')`. -/
def create_center (newId name color now : String) (st : ServerState) :
    Except String ServerState :=
  let name := pyStrip name
  if name = "" then .error "Name required"
  else
    let c : Center :=
      { id := newId
        name := name
        slug := make_slug st.centers name
        color := color
        assignedDoc := none
        currentPage := 0
        connected := false
        createdAt := now }
    let cls := broadcast (.CENTER_ADDED c) st.clients
    .ok { st with centers := st.centers ++ [c], clients := cls }

/-- Model of `update_center` from `server.py`: `newName`/`newColor` are `some v`
when the corresponding key is present in the request body. -/
def update_center (centerId : String) (newName newColor : Option String)
    (st : ServerState) : Except String ServerState :=
  match st.centers.find? (fun c => c.id = centerId) with
  | none => .error "Not found"
  | some center =>
    let center' := { center with name := newName.getD center.name
                                 color := newColor.getD center.color }
    let cls := broadcast (.CENTER_UPDATED center') st.clients
    .ok { st with centers := putCenter center' st.centers, clients := cls }

/-- Model of `delete_center` from `server.py`. -/
def delete_center (centerId : String) (st : ServerState) : Except String ServerState :=
  if st.centers.any (fun c => c.id = centerId) then
    let cs' := st.centers.filter fun c => c.id != centerId
    let cls := broadcast (.CENTER_DELETED centerId) st.clients
    .ok { st with centers := cs', clients := cls }
  else .error "Not found"

/-- Model of `assign_document` from `server.py`.  `docId = none` models a missing or
falsy `documentId` in the request body. -/
def assign_document (centerId : String) (docId : Option String) (st : ServerState) :
    Except String ServerState :=
  match st.centers.find? (fun c => c.id = centerId) with
  | none => .error "Center not found"
  | some center =>
    match docId with
    | none =>
      let center' := { center with assignedDoc := none, currentPage := 0 }
      let cls1 := notifyCenter centerId .DOCUMENT_REMOVED st.clients
      let cls2 := broadcast (.CENTER_UPDATED center') cls1
      .ok { st with centers := putCenter center' st.centers, clients := cls2 }
    | some did =>
      match st.documents.find? (fun d => d.id = did) with
      | none => .error "Document not found"
      | some doc =>
        let center' := { center with
          assignedDoc := some { id := doc.id, name := doc.name, type := doc.type }
          currentPage := 0 }
        let cls1 := notifyCenter centerId (.DOCUMENT_ASSIGNED doc 0) st.clients
        let cls2 := broadcast (.CENTER_UPDATED center') cls1
        .ok { st with centers := putCenter center' st.centers, clients := cls2 }

/-- Model of `set_page` from `server.py`.  `page` is `int(request.json.get('page', 0))`,
an arbitrary-precision integer.  Returns the new state and the stored
`currentPage`. -/
def set_page (centerId : String) (page : Int) (st : ServerState) :
    Except String (ServerState × Int) :=
  match st.centers.find? (fun c => c.id = centerId) with
  | none => .error "Center not found"
  | some center =>
    match center.assignedDoc with
    | none => .error "No document assigned"
    | some ad =>
      match st.documents.find? (fun d => d.id = ad.id) with
      | none => .error "Document not found"
      | some doc =>
        let maxPage : Int := (doc.pages.length : Int) - 1
        let newPage := max 0 (min page maxPage)
        let center' := { center with currentPage := newPage }
        let cls1 := notifyCenter centerId (.PAGE_CHANGE newPage doc.pages.length) st.clients
        let cls2 := broadcast (.CENTER_UPDATED center') cls1
        .ok ({ st with centers := putCenter center' st.centers, clients := cls2 }, newPage)

/-- Inbound WebSocket messages dispatched by `handle_message`. -/
inductive InMsg where
  | REGISTER_DASHBOARD
  | REGISTER_DISPLAY (centerId : Option String)
  | other
deriving DecidableEq, Repr

/-- The `client['ws'].send(...)` inside `handle_message`'s registration
branch: a send to one specific client, failures swallowed (`except: pass`). -/
def sendSelf (clientId : String) (m : Msg) (cls : List Client) : List Client :=
  cls.map fun c => if c.id = clientId then (if c.alive then sendMsg m c else c) else c

/-- The `@sock.route('/ws')` handler's entry: register the client with
`role = None, centerId = None` and send the `INIT` snapshot (delivered only
if the socket is alive; a dead socket leaves the inbox empty). -/
def ws_connect (clientId : String) (alive : Bool) (st : ServerState) : ServerState :=
  let inbox0 : List Msg :=
    if alive then [.INIT st.centers (st.documents.map doc_summary)] else []
  { st with clients := st.clients ++
      [{ id := clientId, role := none, centerId := none, alive := alive, inbox := inbox0 }] }

/-- The `finally:` block of the `/ws` handler: pop the client; if it was
bound to an existing center, flip that center's `connected` to false and
broadcast the update. -/
def ws_disconnect (clientId : String) (st : ServerState) : ServerState :=
  match st.clients.find? (fun c => c.id = clientId) with
  | none => st
  | some client =>
    let cls := st.clients.filter fun c => c.id != clientId
    match client.centerId with
    | none => { st with clients := cls }
    | some cid =>
      match st.centers.find? (fun c => c.id = cid) with
      | none => { st with clients := cls }
      | some center =>
        let center' := { center with connected := false }
        { st with centers := putCenter center' st.centers
                  clients := broadcast (.CENTER_UPDATED center') cls }

/-- Model of `handle_message` from `server.py`. -/
def handle_message (clientId : String) (msg : InMsg) (st : ServerState) : ServerState :=
  match st.clients.find? (fun c => c.id = clientId) with
  | none => st
  | some _ =>
    match msg with
    | .REGISTER_DASHBOARD =>
      { st with clients := st.clients.map fun c =>
          if c.id = clientId then { c with role := some "dashboard" } else c }
    | .REGISTER_DISPLAY centerId =>
      let cls1 := st.clients.map fun c =>
        if c.id = clientId then { c with role := some "display", centerId := centerId } else c
      match centerId with
      | none => { st with clients := cls1 }
      | some cid =>
        match st.centers.find? (fun c => c.id = cid) with
        | none => { st with clients := cls1 }
        | some center =>
          let center' := { center with connected := true }
          let cls2 := broadcast (.CENTER_UPDATED center') cls1
          let cls3 :=
            match center.assignedDoc with
            | none => cls2
            | some ad =>
              match st.documents.find? (fun d => d.id = ad.id) with
              | none => cls2
              | some doc => sendSelf clientId (.DOCUMENT_ASSIGNED doc center.currentPage) cls2
          { st with centers := putCenter center' st.centers, clients := cls3 }
    | .other => st

/-! ### Registry lemmas -/

theorem broadcast_cons (m : Msg) (c : Client) (cls : List Client) :
    broadcast m (c :: cls) =
      if c.alive then sendMsg m c :: broadcast m cls else broadcast m cls := by
  cases ha : c.alive <;> simp [broadcast, List.filterMap_cons, ha]

theorem notifyCenter_cons (cid : String) (m : Msg) (c : Client) (cls : List Client) :
    notifyCenter cid m (c :: cls) =
      if c.centerId = some cid then
        (if c.alive then sendMsg m c :: notifyCenter cid m cls else notifyCenter cid m cls)
      else c :: notifyCenter cid m cls := by
  by_cases hb : c.centerId = some cid
  · cases ha : c.alive <;> simp [notifyCenter, List.filterMap_cons, ha, hb]
  · simp [notifyCenter, List.filterMap_cons, hb]

theorem sendMsg_id (m : Msg) (c : Client) : (sendMsg m c).id = c.id := rfl

theorem sendMsg_alive (m : Msg) (c : Client) : (sendMsg m c).alive = c.alive := rfl

theorem sendMsg_centerId (m : Msg) (c : Client) : (sendMsg m c).centerId = c.centerId := rfl

theorem find?_map_id (f : Client → Client) (hf : ∀ c, (f c).id = c.id)
    (k : String) (cls : List Client) :
    (cls.map f).find? (fun c => c.id = k) = (cls.find? (fun c => c.id = k)).map f := by
  induction cls with
  | nil => rfl
  | cons c rest ih =>
    by_cases h : c.id = k
    · simp [hf, h]
    · simp [hf, h, ih]

theorem find?_broadcast (m : Msg) (k : String) (cls : List Client) (cl : Client)
    (h : cls.find? (fun c => c.id = k) = some cl) (ha : cl.alive = true) :
    (broadcast m cls).find? (fun c => c.id = k) = some (sendMsg m cl) := by
  induction cls with
  | nil => simp at h
  | cons c rest ih =>
    by_cases hck : c.id = k
    · rw [List.find?_cons_of_pos _ (by simp [hck])] at h
      obtain rfl : c = cl := by simpa using h
      rw [broadcast_cons, if_pos ha]
      simp [sendMsg_id, hck]
    · rw [List.find?_cons_of_neg _ (by simp [hck])] at h
      rw [broadcast_cons]
      cases hc : c.alive with
      | true =>
        rw [if_pos rfl, List.find?_cons_of_neg _ (by simp [sendMsg_id, hck])]
        exact ih h
      | false =>
        rw [if_neg (by simp)]
        exact ih h

theorem find?_notifyCenter (cid : String) (m : Msg) (k : String) (cls : List Client)
    (cl : Client) (h : cls.find? (fun c => c.id = k) = some cl) (ha : cl.alive = true) :
    (notifyCenter cid m cls).find? (fun c => c.id = k) =
      some (if cl.centerId = some cid then sendMsg m cl else cl) := by
  induction cls with
  | nil => simp at h
  | cons c rest ih =>
    by_cases hck : c.id = k
    · rw [List.find?_cons_of_pos _ (by simp [hck])] at h
      obtain rfl : c = cl := by simpa using h
      rw [notifyCenter_cons]
      by_cases hb : c.centerId = some cid
      · rw [if_pos hb, if_pos ha, List.find?_cons_of_pos _ (by simp [sendMsg_id, hck]),
          if_pos hb]
      · rw [if_neg hb, List.find?_cons_of_pos _ (by simp [hck]), if_neg hb]
    · rw [List.find?_cons_of_neg _ (by simp [hck])] at h
      rw [notifyCenter_cons]
      by_cases hb : c.centerId = some cid
      · rw [if_pos hb]
        cases hc : c.alive with
        | true =>
          rw [if_pos rfl, List.find?_cons_of_neg _ (by simp [sendMsg_id, hck])]
          exact ih h
        | false =>
          rw [if_neg (by simp)]
          exact ih h
      · rw [if_neg hb, List.find?_cons_of_neg _ (by simp [hck])]
        exact ih h

theorem find?_putCenter (c' : Center) (cs : List Center) (c0 : Center)
    (h : cs.find? (fun c => c.id = c'.id) = some c0) :
    (putCenter c' cs).find? (fun c => c.id = c'.id) = some c' := by
  induction cs with
  | nil => simp at h
  | cons c rest ih =>
    by_cases hc : c.id = c'.id
    · simp only [putCenter, List.map_cons, if_pos hc]
      rw [List.find?_cons_of_pos _ (by simp)]
    · rw [List.find?_cons_of_neg _ (by simp [hc])] at h
      simp only [putCenter, List.map_cons, if_neg hc]
      rw [List.find?_cons_of_neg _ (by simp [hc])]
      exact ih h

theorem find?_sendSelf (k : String) (m : Msg) (cls : List Client) :
    (sendSelf k m cls).find? (fun c => c.id = k) =
      (cls.find? (fun c => c.id = k)).map (fun c => if c.alive then sendMsg m c else c) := by
  have hf : ∀ c : Client, ((fun c : Client =>
      if c.id = k then (if c.alive then sendMsg m c else c) else c) c).id = c.id := by
    intro c
    by_cases h : c.id = k <;> by_cases ha : c.alive <;> simp [h, ha, sendMsg]
  rw [sendSelf, find?_map_id _ hf]
  cases hfind : cls.find? (fun c => c.id = k) with
  | none => rfl
  | some cl =>
    have hk : cl.id = k := by simpa using List.find?_some hfind
    simp [hk]

theorem sendMsg_mem_broadcast (m : Msg) (c : Client) (cls : List Client)
    (hc : c ∈ cls) (ha : c.alive = true) : sendMsg m c ∈ broadcast m cls :=
  List.mem_filterMap.2 ⟨c, hc, by simp [ha]⟩

theorem mem_broadcast_alive (m : Msg) (cls : List Client) (c' : Client)
    (h : c' ∈ broadcast m cls) : c'.alive = true := by
  rcases List.mem_filterMap.1 h with ⟨c, _, he⟩
  cases ha : c.alive with
  | true =>
    rw [ha] at he
    obtain rfl : sendMsg m c = c' := by simpa using he
    simpa [sendMsg_alive] using ha
  | false => rw [ha] at he; simp at he

theorem sendMsg_mem_notifyCenter (cid : String) (m : Msg) (c : Client) (cls : List Client)
    (hc : c ∈ cls) (ha : c.alive = true) (hb : c.centerId = some cid) :
    sendMsg m c ∈ notifyCenter cid m cls :=
  List.mem_filterMap.2 ⟨c, hc, by simp [hb, ha]⟩

theorem mem_notifyCenter_of_unbound (cid : String) (m : Msg) (c : Client) (cls : List Client)
    (hc : c ∈ cls) (hb : ¬ c.centerId = some cid) : c ∈ notifyCenter cid m cls :=
  List.mem_filterMap.2 ⟨c, hc, by simp [hb]⟩

theorem mem_notifyCenter_alive (cid : String) (m : Msg) (cls : List Client) (c' : Client)
    (h : c' ∈ notifyCenter cid m cls) (hb : c'.centerId = some cid) : c'.alive = true := by
  rcases List.mem_filterMap.1 h with ⟨c, _, he⟩
  by_cases hcb : c.centerId = some cid
  · rw [if_pos hcb] at he
    cases ha : c.alive with
    | true =>
      rw [ha] at he
      obtain rfl : sendMsg m c = c' := by simpa using he
      simpa [sendMsg_alive] using ha
    | false => rw [ha] at he; simp at he
  · rw [if_neg hcb] at he
    obtain rfl : c = c' := by simpa using he
    exact absurd hb hcb

/-! ### Delivery persistence through the cascade of `delete_document` -/

/-- Some client with id `k` is registered, alive, and has received `m`. -/
def hasMsgAlive (k : String) (m : Msg) (cls : List Client) : Prop :=
  ∃ c, c ∈ cls ∧ c.id = k ∧ c.alive = true ∧ m ∈ c.inbox

/-- Some client with id `k` is registered, alive, and bound to center `cid`. -/
def boundAlive (k cid : String) (cls : List Client) : Prop :=
  ∃ c, c ∈ cls ∧ c.id = k ∧ c.alive = true ∧ c.centerId = some cid

theorem hasMsgAlive_broadcast (k : String) (m m' : Msg) (cls : List Client)
    (h : hasMsgAlive k m cls) : hasMsgAlive k m (broadcast m' cls) := by
  obtain ⟨c, hc, hid, ha, hm⟩ := h
  refine ⟨sendMsg m' c, sendMsg_mem_broadcast m' c cls hc ha, hid, ha, ?_⟩
  exact List.mem_append_left _ hm

theorem hasMsgAlive_notifyCenter (k cid : String) (m m' : Msg) (cls : List Client)
    (h : hasMsgAlive k m cls) : hasMsgAlive k m (notifyCenter cid m' cls) := by
  obtain ⟨c, hc, hid, ha, hm⟩ := h
  by_cases hb : c.centerId = some cid
  · exact ⟨sendMsg m' c, sendMsg_mem_notifyCenter cid m' c cls hc ha hb, hid, ha,
      List.mem_append_left _ hm⟩
  · exact ⟨c, mem_notifyCenter_of_unbound cid m' c cls hc hb, hid, ha, hm⟩

theorem boundAlive_broadcast (k cid : String) (m' : Msg) (cls : List Client)
    (h : boundAlive k cid cls) : boundAlive k cid (broadcast m' cls) := by
  obtain ⟨c, hc, hid, ha, hb⟩ := h
  exact ⟨sendMsg m' c, sendMsg_mem_broadcast m' c cls hc ha, hid, ha, hb⟩

theorem boundAlive_notifyCenter (k cid cid' : String) (m' : Msg) (cls : List Client)
    (h : boundAlive k cid cls) : boundAlive k cid (notifyCenter cid' m' cls) := by
  obtain ⟨c, hc, hid, ha, hb⟩ := h
  by_cases hb' : c.centerId = some cid'
  · exact ⟨sendMsg m' c, sendMsg_mem_notifyCenter cid' m' c cls hc ha hb', hid, ha, hb⟩
  · exact ⟨c, mem_notifyCenter_of_unbound cid' m' c cls hc hb', hid, ha, hb⟩

/-- Delivery: `notify_center` delivers to every alive client bound to the center. -/
theorem notifyCenter_delivers (k cid : String) (m : Msg) (cls : List Client)
    (h : boundAlive k cid cls) : hasMsgAlive k m (notifyCenter cid m cls) := by
  obtain ⟨c, hc, hid, ha, hb⟩ := h
  exact ⟨sendMsg m c, sendMsg_mem_notifyCenter cid m c cls hc ha hb, hid, ha,
    List.mem_append_right _ (by simp)⟩

theorem cascadeClear_fst (docId : String) (cs : List Center) :
    ∀ cls, (cascadeClear docId cs cls).1 = cs.map (clearIfRef docId) := by
  induction cs with
  | nil => intro cls; rfl
  | cons c rest ih =>
    intro cls
    by_cases hr : refersTo docId c
    · simp only [cascadeClear, if_pos hr, clearIfRef, List.map_cons, ih]
    · simp only [cascadeClear, if_neg hr, clearIfRef, List.map_cons, ih]

theorem hasMsgAlive_cascadeClear (docId k : String) (m : Msg) (cs : List Center) :
    ∀ cls, hasMsgAlive k m cls → hasMsgAlive k m (cascadeClear docId cs cls).2 := by
  induction cs with
  | nil => intro cls h; exact h
  | cons c rest ih =>
    intro cls h
    by_cases hr : refersTo docId c
    · simp only [cascadeClear, if_pos hr]
      exact ih _ (hasMsgAlive_broadcast _ _ _ _ (hasMsgAlive_notifyCenter _ _ _ _ _ h))
    · simp only [cascadeClear, if_neg hr]
      exact ih _ h

theorem boundAlive_cascadeClear (docId k cid : String) (cs : List Center) :
    ∀ cls, boundAlive k cid cls → boundAlive k cid (cascadeClear docId cs cls).2 := by
  induction cs with
  | nil => intro cls h; exact h
  | cons c rest ih =>
    intro cls h
    by_cases hr : refersTo docId c
    · simp only [cascadeClear, if_pos hr]
      exact ih _ (boundAlive_broadcast _ _ _ _ (boundAlive_notifyCenter _ _ _ _ _ h))
    · simp only [cascadeClear, if_neg hr]
      exact ih _ h

/-- Every alive client bound to a center that references the deleted
document receives `DOCUMENT_REMOVED` during the cascade. -/
theorem cascadeClear_delivers (docId k : String) (cs : List Center) :
    ∀ cls c, c ∈ cs → refersTo docId c = true → boundAlive k c.id cls →
      hasMsgAlive k .DOCUMENT_REMOVED (cascadeClear docId cs cls).2 := by
  induction cs with
  | nil => intro cls c hc; simp at hc
  | cons c0 rest ih =>
    intro cls c hc hr hb
    rcases List.mem_cons.1 hc with rfl | hmem
    · simp only [cascadeClear, if_pos hr]
      exact hasMsgAlive_cascadeClear _ _ _ _ _
        (hasMsgAlive_broadcast _ _ _ _ (notifyCenter_delivers _ _ _ _ hb))
    · by_cases hr0 : refersTo docId c0
      · simp only [cascadeClear, if_pos hr0]
        exact ih _ c hmem hr
          (boundAlive_broadcast _ _ _ _ (boundAlive_notifyCenter _ _ _ _ _ hb))
      · simp only [cascadeClear, if_neg hr0]
        exact ih _ c hmem hr hb

/-! ### Slug uniqueness -/

theorem decDigitsAux_eq (fuel : Nat) : ∀ n, n ≤ fuel → decDigitsAux fuel n = Nat.digits 10 n := by
  induction fuel with
  | zero =>
    intro n h
    have hn : n = 0 := by omega
    subst hn
    simp [decDigitsAux]
  | succ fuel ih =>
    intro n h
    match n with
    | 0 => simp [decDigitsAux]
    | n + 1 =>
      rw [decDigitsAux, Nat.digits_def' (by norm_num : (1:ℕ) < 10) (Nat.succ_pos n)]
      congr 1
      have hlt : (n + 1) / 10 < n + 1 := Nat.div_lt_self (Nat.succ_pos n) (by norm_num)
      exact ih _ (by omega)

theorem map_decDigit_inj : ∀ (l1 l2 : List Nat), (∀ x ∈ l1, x < 10) → (∀ x ∈ l2, x < 10) →
    l1.map decDigit = l2.map decDigit → l1 = l2 := by
  intro l1
  induction l1 with
  | nil =>
    intro l2 _ _ h
    cases l2 with
    | nil => rfl
    | cons b t2 => simp at h
  | cons a t ih =>
    intro l2 h1 h2 h
    cases l2 with
    | nil => simp at h
    | cons b t2 =>
      simp only [List.map_cons, List.cons.injEq] at h
      obtain ⟨hab, ht⟩ := h
      have ha : a < 10 := h1 a (by simp)
      have hb : b < 10 := h2 b (by simp)
      have : a = b := by
        interval_cases a <;> interval_cases b <;>
          first
          | rfl
          | exact absurd hab (by decide)
      rw [this, ih t2 (fun x hx => h1 x (by simp [hx])) (fun x hx => h2 x (by simp [hx])) ht]

theorem decRepr_inj {m n : Nat} (h : decRepr m = decRepr n) : m = n := by
  have h1 : ((decDigitsAux m m).reverse.map decDigit) =
      ((decDigitsAux n n).reverse.map decDigit) := congrArg String.data h
  rw [decDigitsAux_eq m m le_rfl, decDigitsAux_eq n n le_rfl] at h1
  have h2 : (Nat.digits 10 m).reverse = (Nat.digits 10 n).reverse :=
    map_decDigit_inj _ _
      (fun x hx => Nat.digits_lt_base (by norm_num) (List.mem_reverse.1 hx))
      (fun x hx => Nat.digits_lt_base (by norm_num) (List.mem_reverse.1 hx)) h1
  have h3 : Nat.digits 10 m = Nat.digits 10 n := List.reverse_inj.1 h2
  exact Nat.digits_inj_iff.1 h3

theorem slugCandidate_inj (base : String) {j k : Nat}
    (h : slugCandidate base j = slugCandidate base k) : j = k := by
  have hd : (base ++ "-" ++ decRepr j).data = (base ++ "-" ++ decRepr k).data :=
    congrArg String.data h
  simp only [String.data_append] at hd
  have : (decRepr j).data = (decRepr k).data := List.append_cancel_left hd
  exact decRepr_inj (by cases hj : decRepr j; cases hk : decRepr k; simp_all)

/-- If the loop runs out of fuel, every candidate it tried was a slug of
some center; the candidates are pairwise distinct, so at least `fuel`
distinct strings occur among the centers' slugs. -/
theorem slugLoop_finds (cs : List Center) (base : String) :
    ∀ (fuel counter : Nat),
      (∃ k, counter ≤ k ∧ k < counter + fuel ∧ slugTaken cs (slugCandidate base k) = false) →
      ∃ s, slugLoop cs base fuel counter = some s ∧ slugTaken cs s = false := by
  intro fuel
  induction fuel with
  | zero =>
    intro counter h
    obtain ⟨k, h1, h2, _⟩ := h
    omega
  | succ fuel ih =>
    intro counter h
    obtain ⟨k, h1, h2, h3⟩ := h
    by_cases ht : slugTaken cs (slugCandidate base counter) = true
    · have hkc : k ≠ counter := by
        intro he
        rw [he] at h3
        rw [h3] at ht
        exact Bool.false_ne_true ht
      have : ∃ k, counter + 1 ≤ k ∧ k < counter + 1 + fuel ∧
          slugTaken cs (slugCandidate base k) = false := ⟨k, by omega, by omega, h3⟩
      obtain ⟨s, hs1, hs2⟩ := ih (counter + 1) this
      refine ⟨s, ?_, hs2⟩
      simp only [slugLoop, ht, if_true]
      exact hs1
    · have hf : slugTaken cs (slugCandidate base counter) = false := by
        cases hx : slugTaken cs (slugCandidate base counter)
        · rfl
        · exact absurd hx ht
      refine ⟨slugCandidate base counter, ?_, hf⟩
      simp only [slugLoop, hf]
      rfl

/-- Pigeonhole: among `cs.length + 1` distinct candidates at least one is
not a slug of any center in `cs`. -/
theorem exists_free_candidate (cs : List Center) (base : String) (counter : Nat) :
    ∃ k, counter ≤ k ∧ k < counter + (cs.length + 1) ∧
      slugTaken cs (slugCandidate base k) = false := by
  by_contra hall
  push_neg at hall
  have htaken : ∀ k, counter ≤ k → k < counter + (cs.length + 1) →
      slugTaken cs (slugCandidate base k) = true := by
    intro k h1 h2
    cases hx : slugTaken cs (slugCandidate base k)
    · exact absurd hx (hall k h1 h2)
    · rfl
  set L : List String :=
    (List.range (cs.length + 1)).map (fun i => slugCandidate base (counter + i)) with hL
  have hnodup : L.Nodup := by
    rw [hL]
    refine List.Nodup.map_on ?_ (List.nodup_range _)
    intro i _ j _ he
    have := slugCandidate_inj base he
    omega
  have hsub : L ⊆ cs.map (fun c => c.slug) := by
    intro s hs
    rw [hL] at hs
    obtain ⟨i, hi, rfl⟩ := List.mem_map.1 hs
    rw [List.mem_range] at hi
    have := htaken (counter + i) (by omega) (by omega)
    obtain ⟨c, hc, he⟩ := List.any_eq_true.1 this
    rw [List.mem_map]
    exact ⟨c, hc, by simpa using he⟩
  have hcard1 : L.toFinset.card = cs.length + 1 := by
    rw [List.toFinset_card_of_nodup hnodup, hL, List.length_map, List.length_range]
  have hcard2 : L.toFinset.card ≤ cs.length := by
    calc L.toFinset.card ≤ (cs.map (fun c => c.slug)).toFinset.card :=
          Finset.card_le_card (fun s hs =>
            List.mem_toFinset.2 (hsub (List.mem_toFinset.1 hs)))
      _ ≤ (cs.map (fun c => c.slug)).length := List.toFinset_card_le _
      _ = cs.length := List.length_map _ _
  omega

/-- The slug produced by `make_slug` never collides with an existing slug. -/
theorem make_slug_not_taken (cs : List Center) (name : String) :
    slugTaken cs (make_slug cs name) = false := by
  unfold make_slug
  by_cases hb : slugTaken cs (sluggify name) = true
  · simp only [hb, if_true]
    obtain ⟨s, hs1, hs2⟩ :=
      slugLoop_finds cs (sluggify name) (cs.length + 1) 2
        (exists_free_candidate cs (sluggify name) 2)
    rw [hs1]
    exact hs2
  · have hf : slugTaken cs (sluggify name) = false := by
      cases hx : slugTaken cs (sluggify name)
      · rfl
      · exact absurd hx hb
    simp only [hf, if_neg]
    simpa using hf

/-! ### Reachable states and the assigned-document invariant -/

/-- States reachable from the empty registries through the server's
operations. -/
inductive Reachable : ServerState → Prop where
  | init : Reachable initState
  | create {st st' : ServerState} (newId name color now : String) (h : Reachable st)
      (hop : create_center newId name color now st = .ok st') : Reachable st'
  | update {st st' : ServerState} (centerId : String) (newName newColor : Option String)
      (h : Reachable st) (hop : update_center centerId newName newColor st = .ok st') :
      Reachable st'
  | deleteCenter {st st' : ServerState} (centerId : String) (h : Reachable st)
      (hop : delete_center centerId st = .ok st') : Reachable st'
  | assign {st st' : ServerState} (centerId : String) (docId : Option String)
      (h : Reachable st) (hop : assign_document centerId docId st = .ok st') : Reachable st'
  | setPage {st st' : ServerState} {p : Int} (centerId : String) (page : Int)
      (h : Reachable st) (hop : set_page centerId page st = .ok (st', p)) : Reachable st'
  | upload {st : ServerState} (ext filepath : String)
      (parseResult : Except String (List Page)) (docId docName origName now : String)
      (h : Reachable st) :
      Reachable (upload_document ext filepath parseResult docId docName origName now st).1
  | deleteDoc {st st' : ServerState} (docId : String) (h : Reachable st)
      (hop : delete_document docId st = .ok st') : Reachable st'
  | connect {st : ServerState} (clientId : String) (alive : Bool) (h : Reachable st) :
      Reachable (ws_connect clientId alive st)
  | disconnect {st : ServerState} (clientId : String) (h : Reachable st) :
      Reachable (ws_disconnect clientId st)
  | message {st : ServerState} (clientId : String) (msg : InMsg) (h : Reachable st) :
      Reachable (handle_message clientId msg st)

/-- Every `assignedDoc` reference on a center points at a stored document. -/
def docRefsOk (st : ServerState) : Prop :=
  ∀ c ∈ st.centers, ∀ ad, c.assignedDoc = some ad → ∃ d ∈ st.documents, d.id = ad.id

theorem mem_putCenter (c' : Center) (cs : List Center) (x : Center)
    (h : x ∈ putCenter c' cs) : x = c' ∨ x ∈ cs := by
  obtain ⟨c, hc, he⟩ := List.mem_map.1 h
  by_cases hid : c.id = c'.id
  · rw [if_pos hid] at he
    exact Or.inl he.symm
  · rw [if_neg hid] at he
    exact Or.inr (he ▸ hc)

theorem reachable_docRefsOk (st : ServerState) (h : Reachable st) : docRefsOk st := by
  induction h with
  | init => intro c hc ad _; simp [initState] at hc
  | @create st st' newId name color now h hop ih =>
    simp only [create_center] at hop
    split at hop
    · simp at hop
    · injection hop with hst
      subst hst
      intro c hc ad had
      rcases List.mem_append.1 hc with hmem | hmem
      · exact ih c hmem ad had
      · rw [List.mem_singleton] at hmem
        subst hmem
        simp at had
  | @update st st' centerId newName newColor h hop ih =>
    simp only [update_center] at hop
    split at hop
    · simp at hop
    · next center hfind =>
      injection hop with hst
      subst hst
      intro c hc ad had
      rcases mem_putCenter _ _ _ hc with rfl | hmem
      · exact ih center (List.mem_of_find?_eq_some hfind) ad had
      · exact ih c hmem ad had
  | @deleteCenter st st' centerId h hop ih =>
    simp only [delete_center] at hop
    split at hop
    · injection hop with hst
      subst hst
      intro c hc ad had
      exact ih c (List.mem_of_mem_filter hc) ad had
    · simp at hop
  | @assign st st' centerId docId h hop ih =>
    simp only [assign_document] at hop
    split at hop
    · simp at hop
    · next center hfind =>
      split at hop
      · injection hop with hst
        subst hst
        intro c hc ad had
        rcases mem_putCenter _ _ _ hc with rfl | hmem
        · simp at had
        · exact ih c hmem ad had
      · next did =>
        split at hop
        · simp at hop
        · next doc hdoc =>
          injection hop with hst
          subst hst
          intro c hc ad had
          rcases mem_putCenter _ _ _ hc with rfl | hmem
          · have had' : ad = { id := doc.id, name := doc.name, type := doc.type } := by
              simpa using had.symm
            refine ⟨doc, List.mem_of_find?_eq_some hdoc, ?_⟩
            rw [had']
          · exact ih c hmem ad had
  | @setPage st st' p centerId page h hop ih =>
    simp only [set_page] at hop
    split at hop
    · simp at hop
    · next center hfind =>
      split at hop
      · simp at hop
      · next ad0 had0 =>
        split at hop
        · simp at hop
        · next doc hdoc =>
          injection hop with hpair
          injection hpair with h1 h2
          subst h1
          intro c hc ad had
          rcases mem_putCenter _ _ _ hc with rfl | hmem
          · have hsame : center.assignedDoc = some ad := had
            rw [had0] at hsame
            obtain rfl : ad0 = ad := by simpa using hsame
            exact ⟨doc, List.mem_of_find?_eq_some hdoc, by
              simpa using List.find?_some hdoc⟩
          · exact ih c hmem ad had
  | @upload st ext filepath parseResult docId docName origName now h ih =>
    simp only [upload_document]
    split
    · exact ih
    · split
      · intro c hc ad had
        exact ih c hc ad had
      · intro c hc ad had
        obtain ⟨d, hd, hid⟩ := ih c hc ad had
        exact ⟨d, List.mem_append_left _ hd, hid⟩
  | @deleteDoc st st' docId h hop ih =>
    simp only [delete_document] at hop
    split at hop
    · simp at hop
    · next doc hfind =>
      injection hop with hst
      subst hst
      intro c hc ad had
      rw [cascadeClear_fst] at hc
      obtain ⟨c0, hc0, rfl⟩ := List.mem_map.1 hc
      unfold clearIfRef at had
      by_cases hr : refersTo docId c0 = true
      · rw [if_pos hr] at had
        simp at had
      · rw [if_neg hr] at had
        obtain ⟨d, hd, hid⟩ := ih c0 hc0 ad had
        have hne : ¬ ad.id = docId := by
          unfold refersTo at hr
          rw [had] at hr
          simpa using hr
        refine ⟨d, List.mem_filter.2 ⟨hd, ?_⟩, hid⟩
        simp [hid, hne]
  | @connect st clientId alive h ih =>
    intro c hc ad had
    exact ih c hc ad had
  | @disconnect st clientId h ih =>
    simp only [ws_disconnect]
    split
    · exact ih
    · next client hfind =>
      split
      · intro c hc ad had
        exact ih c hc ad had
      · next cid hb =>
        split
        · intro c hc ad had
          exact ih c hc ad had
        · next center hc2 =>
          intro c hc ad had
          rcases mem_putCenter _ _ _ hc with rfl | hmem
          · exact ih center (List.mem_of_find?_eq_some hc2) ad had
          · exact ih c hmem ad had
  | @message st clientId msg h ih =>
    simp only [handle_message]
    split
    · exact ih
    · next client hfind =>
      split
      · intro c hc ad had
        exact ih c hc ad had
      · next rcid =>
        split
        · intro c hc ad had
          exact ih c hc ad had
        · next cid =>
          split
          · intro c hc ad had
            exact ih c hc ad had
          · next center hc2 =>
            intro c hc ad had
            rcases mem_putCenter _ _ _ hc with rfl | hmem
            · exact ih center (List.mem_of_find?_eq_some hc2) ad had
            · exact ih c hmem ad had
      · exact ih

/-! ### Claim C2: slug generation -/

def slugCenter1 : Center :=
  { id := "c1"
    name := "Assembly 1"
    slug := "assembly-1"
    color := "#2563eb"
    assignedDoc := none
    currentPage := 0
    connected := false
    createdAt := "t0" }

def slugCenter2 : Center :=
  { id := "c2"
    name := "Assembly 1"
    slug := "assembly-1-2"
    color := "#2563eb"
    assignedDoc := none
    currentPage := 0
    connected := false
    createdAt := "t1" }

def slugState1 : ServerState :=
  { centers := [slugCenter1], documents := [], clients := [], files := [] }

def slugState2 : ServerState :=
  { centers := [slugCenter1, slugCenter2], documents := [], clients := [], files := [] }

/-- C2: the slug is the lowercased name with runs of non-alphanumeric
characters collapsed to single hyphens and outer hyphens trimmed
(`sluggify`), used as-is when free; the result never collides with an
existing center's slug (the `-2`, `-3`, … suffix loop); and creating two
centers both named "Assembly 1" yields slugs `assembly-1` and
`assembly-1-2`. -/
theorem C2_slug_generation (cs : List Center) (name : String) :
    (slugTaken cs (sluggify name) = false → make_slug cs name = sluggify name) ∧
    slugTaken cs (make_slug cs name) = false ∧
    create_center "c1" "Assembly 1" "#2563eb" "t0" initState = .ok slugState1 ∧
    create_center "c2" "Assembly 1" "#2563eb" "t1" slugState1 = .ok slugState2 ∧
    slugCenter1.slug = "assembly-1" ∧ slugCenter2.slug = "assembly-1-2" := by
  refine ⟨?_, make_slug_not_taken cs name, by rfl, by rfl, rfl, rfl⟩
  intro hfree
  unfold make_slug
  simp only [hfree]
  rfl

/-- Witness: with no centers, the slug of "Hello, World!" is the collapsed
lowercased name, and it is free. -/
theorem C2_slug_generation_witness :
    make_slug [] "Hello, World!" = sluggify "Hello, World!" ∧
    slugTaken [] (make_slug [] "Hello, World!") = false :=
  ⟨(C2_slug_generation [] "Hello, World!").1 (by decide),
   (C2_slug_generation [] "Hello, World!").2.1⟩

/-! ### Claim C4: broadcast resilience -/

/-- C4: a failed send never prevents delivery to the other connections,
and every connection whose send failed is removed from the registry by the
end of the same broadcast; likewise for `notify_center` among the
connections bound to the center. -/
theorem C4_broadcast_resilience (m : Msg) (cls : List Client) (cid : String) :
    (∀ c ∈ cls, c.alive = true → sendMsg m c ∈ broadcast m cls) ∧
    (∀ c ∈ broadcast m cls, c.alive = true) ∧
    (∀ c ∈ cls, c.alive = true → c.centerId = some cid → sendMsg m c ∈ notifyCenter cid m cls) ∧
    (∀ c ∈ notifyCenter cid m cls, c.centerId = some cid → c.alive = true) :=
  ⟨fun c hc ha => sendMsg_mem_broadcast m c cls hc ha,
   fun c hc => mem_broadcast_alive m cls c hc,
   fun c hc ha hb => sendMsg_mem_notifyCenter cid m c cls hc ha hb,
   fun c hc hb => mem_notifyCenter_alive cid m cls c hc hb⟩

def wClientA : Client := { id := "a", role := none, centerId := none, alive := true, inbox := [] }
def wClientB : Client := { id := "b", role := none, centerId := none, alive := false, inbox := [] }
def wClientC : Client := { id := "c", role := none, centerId := none, alive := true, inbox := [] }

/-- Witness: of three connections with the middle one closed, the other two
receive the message and the closed one is gone afterwards. -/
theorem C4_broadcast_resilience_witness :
    sendMsg .DOCUMENT_REMOVED wClientA ∈
      broadcast .DOCUMENT_REMOVED [wClientA, wClientB, wClientC] ∧
    sendMsg .DOCUMENT_REMOVED wClientC ∈
      broadcast .DOCUMENT_REMOVED [wClientA, wClientB, wClientC] ∧
    broadcast .DOCUMENT_REMOVED [wClientA, wClientB, wClientC] =
      [sendMsg .DOCUMENT_REMOVED wClientA, sendMsg .DOCUMENT_REMOVED wClientC] :=
  ⟨(C4_broadcast_resilience .DOCUMENT_REMOVED [wClientA, wClientB, wClientC] "x").1
      wClientA (by decide) rfl,
   (C4_broadcast_resilience .DOCUMENT_REMOVED [wClientA, wClientB, wClientC] "x").1
      wClientC (by decide) rfl,
   by rfl⟩

/-! ### Claim C10: assigned references always resolve -/

theorem set_page_no_missing_doc (st : ServerState) (hinv : docRefsOk st)
    (cid : String) (page : Int) :
    set_page cid page st ≠ .error "Document not found" := by
  unfold set_page
  cases hc : st.centers.find? (fun c => c.id = cid) with
  | none => simp
  | some center =>
    cases had : center.assignedDoc with
    | none => simp [had]
    | some ad =>
      cases hd : st.documents.find? (fun d => d.id = ad.id) with
      | some doc => simp [had, hd]
      | none =>
        obtain ⟨d, hdm, hdid⟩ := hinv center (List.mem_of_find?_eq_some hc) ad had
        have hne : ¬ st.documents.find? (fun d => d.id = ad.id) = none := by
          intro hnone
          have := List.find?_eq_none.1 hnone d hdm
          simp [hdid] at this
        exact absurd hd hne

/-- C10: in every reachable state, every `assignedDoc` reference on a
center points at a document present in the store, so the
`'Document not found'` branch inside `set_page` is unreachable. -/
theorem C10_assigned_refs_valid (st : ServerState) (h : Reachable st) :
    docRefsOk st ∧
    ∀ cid page, set_page cid page st ≠ .error "Document not found" :=
  ⟨reachable_docRefsOk st h,
   fun cid page => set_page_no_missing_doc st (reachable_docRefsOk st h) cid page⟩

def wPage : Page := { title := "P1", html := "<p>x</p>" }

def wDoc : Doc :=
  { id := "d1"
    name := "Doc"
    originalName := "f.docx"
    type := "word"
    pages := [wPage]
    uploadedAt := "t1"
    filePath := "/up/f" }

def wCenter : Center :=
  { id := "c1"
    name := "Line A"
    slug := "line-a"
    color := "#2563eb"
    assignedDoc := none
    currentPage := 0
    connected := false
    createdAt := "t0" }

def wCenterAssigned : Center :=
  { wCenter with assignedDoc := some { id := "d1", name := "Doc", type := "word" } }

def wState1 : ServerState :=
  { centers := [wCenter], documents := [], clients := [], files := [] }

def wState2 : ServerState :=
  { centers := [wCenter], documents := [wDoc], clients := [], files := ["/up/f"] }

def wState3 : ServerState :=
  { centers := [wCenterAssigned], documents := [wDoc], clients := [], files := ["/up/f"] }

/-- Witness: the state reached by create center → upload → assign
satisfies the invariant, so `set_page` cannot fail with
`'Document not found'` there. -/
theorem C10_assigned_refs_valid_witness :
    docRefsOk wState3 ∧
    ∀ cid page, set_page cid page wState3 ≠ .error "Document not found" :=
  C10_assigned_refs_valid wState3
    (Reachable.assign "c1" (some "d1")
      ((by rfl :
          (upload_document ".docx" "/up/f" (.ok [wPage]) "d1" "Doc" "f.docx" "t1" wState1).1 =
            wState2) ▸
        Reachable.upload ".docx" "/up/f" (.ok [wPage]) "d1" "Doc" "f.docx" "t1"
          (Reachable.create "c1" "Line A" "#2563eb" "t0" Reachable.init (by rfl)))
      (by rfl))

/-! ### Claim C1: page clamping -/

/-- The clamp `max(0, min(page, max_page))` with `max_page = len(doc['pages']) - 1`. -/
def clampInt (page : Int) (n : Nat) : Int := max 0 (min page ((n : Int) - 1))

/-- The center as mutated by a successful `set_page`. -/
def setPageCenter (center : Center) (page : Int) (n : Nat) : Center :=
  { center with currentPage := clampInt page n }

/-- The full state after a successful `set_page`. -/
def setPageState (st : ServerState) (cid : String) (center : Center) (page : Int)
    (doc : Doc) : ServerState :=
  { st with
    centers := putCenter (setPageCenter center page doc.pages.length) st.centers
    clients := broadcast (.CENTER_UPDATED (setPageCenter center page doc.pages.length))
      (notifyCenter cid
        (.PAGE_CHANGE (clampInt page doc.pages.length) doc.pages.length) st.clients) }

theorem set_page_ok (st : ServerState) (cid : String) (center : Center) (ad : AssignedDoc)
    (doc : Doc) (page : Int)
    (hc : st.centers.find? (fun c => c.id = cid) = some center)
    (had : center.assignedDoc = some ad)
    (hd : st.documents.find? (fun d => d.id = ad.id) = some doc) :
    set_page cid page st =
      .ok (setPageState st cid center page doc, clampInt page doc.pages.length) := by
  simp only [set_page, hc, had, hd, setPageState, setPageCenter, clampInt]

theorem clamp_bounds (page : Int) (n : Nat) (hn : 1 ≤ n) :
    0 ≤ clampInt page n ∧ clampInt page n ≤ (n : Int) - 1 := by
  constructor
  · exact le_max_left 0 _
  · have h1 : (1 : Int) ≤ (n : Int) := by exact_mod_cast hn
    exact max_le (by omega) (min_le_right _ _)

theorem find?_putCenter_pred (c' : Center) (cs : List Center) (cid : String) (c0 : Center)
    (h : cs.find? (fun c => c.id = cid) = some c0) (hid : c'.id = cid) :
    (putCenter c' cs).find? (fun c => c.id = cid) = some c' := by
  induction cs with
  | nil => simp at h
  | cons c rest ih =>
    by_cases hcc : c.id = cid
    · have hcc' : c.id = c'.id := by rw [hcc, hid]
      simp only [putCenter, List.map_cons, if_pos hcc']
      rw [List.find?_cons_of_pos _ (by simp [hid])]
    · rw [List.find?_cons_of_neg _ (by simp [hcc])] at h
      have hne : ¬ c.id = c'.id := by rw [hid]; exact hcc
      simp only [putCenter, List.map_cons, if_neg hne]
      rw [List.find?_cons_of_neg _ (by simp [hcc])]
      exact ih h

/-- A sequence of `set_page` requests applied in order; a failing request
leaves the registries unchanged, as in the HTTP handler. -/
def applyPages (cid : String) (reqs : List Int) (st : ServerState) : ServerState :=
  reqs.foldl (fun s r =>
    match set_page cid r s with
    | .ok sp => sp.1
    | .error _ => s) st

theorem applyPages_in_range (cid : String) (ad : AssignedDoc) (doc : Doc)
    (hn : 1 ≤ doc.pages.length) :
    ∀ (reqs : List Int) (st : ServerState) (center : Center),
      st.centers.find? (fun c => c.id = cid) = some center →
      center.assignedDoc = some ad →
      st.documents.find? (fun d => d.id = ad.id) = some doc →
      reqs ≠ [] →
      ∀ c', (applyPages cid reqs st).centers.find? (fun c => c.id = cid) = some c' →
        0 ≤ c'.currentPage ∧ c'.currentPage ≤ (doc.pages.length : Int) - 1 := by
  intro reqs
  induction reqs with
  | nil =>
    intro st center _ _ _ hne
    exact absurd rfl hne
  | cons r rest ih =>
    intro st center hc had hd _ c' hc'
    have hok := set_page_ok st cid center ad doc r hc had hd
    have hcid : center.id = cid := by simpa using List.find?_some hc
    have hstep : applyPages cid (r :: rest) st =
        applyPages cid rest (setPageState st cid center r doc) := by
      simp only [applyPages, List.foldl_cons, hok]
    have hfind1 : (setPageState st cid center r doc).centers.find? (fun c => c.id = cid) =
        some (setPageCenter center r doc.pages.length) :=
      find?_putCenter_pred _ _ cid center hc hcid
    rw [hstep] at hc'
    cases rest with
    | nil =>
      simp only [applyPages, List.foldl_nil] at hc'
      obtain rfl : setPageCenter center r doc.pages.length = c' := by
        have := hfind1.symm.trans hc'
        simpa using this
      exact clamp_bounds r doc.pages.length hn
    | cons r2 rest2 =>
      exact ih (setPageState st cid center r doc) (setPageCenter center r doc.pages.length)
        hfind1 had hd (by simp) c' hc'

/-- C1: with a document assigned (and its page list nonempty, as the
parsers guarantee), every `set_page` request — including negative and
arbitrarily large integers — succeeds and stores the request clamped into
`[0, pageCount-1]`, and after any nonempty sequence of `set_page` calls
the center's `currentPage` lies in `[0, pageCount-1]`. -/
theorem C1_set_page_clamped (st : ServerState) (cid : String) (center : Center)
    (ad : AssignedDoc) (doc : Doc)
    (hc : st.centers.find? (fun c => c.id = cid) = some center)
    (had : center.assignedDoc = some ad)
    (hd : st.documents.find? (fun d => d.id = ad.id) = some doc)
    (hn : 1 ≤ doc.pages.length) :
    (∀ page : Int,
      set_page cid page st =
        .ok (setPageState st cid center page doc, clampInt page doc.pages.length) ∧
      0 ≤ clampInt page doc.pages.length ∧
      clampInt page doc.pages.length ≤ (doc.pages.length : Int) - 1) ∧
    (∀ reqs : List Int, reqs ≠ [] →
      ∀ c', (applyPages cid reqs st).centers.find? (fun c => c.id = cid) = some c' →
        0 ≤ c'.currentPage ∧ c'.currentPage ≤ (doc.pages.length : Int) - 1) := by
  constructor
  · intro page
    exact ⟨set_page_ok st cid center ad doc page hc had hd,
      (clamp_bounds page doc.pages.length hn).1, (clamp_bounds page doc.pages.length hn).2⟩
  · intro reqs hne c' hc'
    exact applyPages_in_range cid ad doc hn reqs st center hc had hd hne c' hc'

def wFinalCenter : Center := { wCenterAssigned with currentPage := 0 }

/-- Witness: on the one-page document of `wState3`, a request of `-5` is
stored as page 0, and after the request sequence `[100, -3]` the stored
page is still within `[0, 0]`. -/
theorem C1_set_page_clamped_witness :
    (set_page "c1" (-5) wState3 =
      .ok (setPageState wState3 "c1" wCenterAssigned (-5) wDoc,
           clampInt (-5) wDoc.pages.length) ∧
      0 ≤ clampInt (-5) wDoc.pages.length ∧
      clampInt (-5) wDoc.pages.length ≤ (wDoc.pages.length : Int) - 1) ∧
    (0 ≤ wFinalCenter.currentPage ∧
      wFinalCenter.currentPage ≤ (wDoc.pages.length : Int) - 1) :=
  ⟨(C1_set_page_clamped wState3 "c1" wCenterAssigned
      { id := "d1", name := "Doc", type := "word" } wDoc
      rfl rfl rfl (by decide)).1 (-5),
   (C1_set_page_clamped wState3 "c1" wCenterAssigned
      { id := "d1", name := "Doc", type := "word" } wDoc
      rfl rfl rfl (by decide)).2 [100, -3] (by simp) wFinalCenter (by rfl)⟩

/-! ### Claim C5: assignment -/

/-- C5: `assign_document` fails with `Center not found` for an unknown
center; for a known center it clears the assignment (and resets
`currentPage` to 0) when given no document id, fails with
`Document not found` for an unknown document id (the lookup precedes every
mutation, so the registries are untouched), and otherwise stores the
document summary and resets `currentPage` to 0. -/
theorem C5_assign_document (st : ServerState) (cid : String) :
    (st.centers.find? (fun c => c.id = cid) = none →
      ∀ d, assign_document cid d st = .error "Center not found") ∧
    (∀ center, st.centers.find? (fun c => c.id = cid) = some center →
      assign_document cid none st = .ok { st with
        centers := putCenter { center with assignedDoc := none, currentPage := 0 } st.centers
        clients := broadcast
          (.CENTER_UPDATED { center with assignedDoc := none, currentPage := 0 })
          (notifyCenter cid .DOCUMENT_REMOVED st.clients) }) ∧
    (∀ center did, st.centers.find? (fun c => c.id = cid) = some center →
      st.documents.find? (fun d => d.id = did) = none →
      assign_document cid (some did) st = .error "Document not found") ∧
    (∀ center did doc, st.centers.find? (fun c => c.id = cid) = some center →
      st.documents.find? (fun d => d.id = did) = some doc →
      assign_document cid (some did) st = .ok { st with
        centers := putCenter { center with
          assignedDoc := some { id := doc.id, name := doc.name, type := doc.type }
          currentPage := 0 } st.centers
        clients := broadcast (.CENTER_UPDATED { center with
            assignedDoc := some { id := doc.id, name := doc.name, type := doc.type }
            currentPage := 0 })
          (notifyCenter cid (.DOCUMENT_ASSIGNED doc 0) st.clients) }) := by
  refine ⟨?_, ?_, ?_, ?_⟩
  · intro hnone d
    simp only [assign_document, hnone]
  · intro center hc
    simp only [assign_document, hc]
  · intro center did hc hd
    simp only [assign_document, hc, hd]
  · intro center did doc hc hd
    simp only [assign_document, hc, hd]

/-- Witness: on the concrete two-step state, clearing and assigning both
behave as stated, and an unknown document id is rejected. -/
theorem C5_assign_document_witness :
    assign_document "c1" none wState2 = .ok { wState2 with
      centers := putCenter { wCenter with assignedDoc := none, currentPage := 0 }
        wState2.centers
      clients := broadcast
        (.CENTER_UPDATED { wCenter with assignedDoc := none, currentPage := 0 })
        (notifyCenter "c1" .DOCUMENT_REMOVED wState2.clients) } ∧
    assign_document "c1" (some "zzz") wState2 = .error "Document not found" ∧
    assign_document "c1" (some "d1") wState2 = .ok { wState2 with
      centers := putCenter { wCenter with
        assignedDoc := some { id := "d1", name := "Doc", type := "word" }
        currentPage := 0 } wState2.centers
      clients := broadcast (.CENTER_UPDATED { wCenter with
          assignedDoc := some { id := "d1", name := "Doc", type := "word" }
          currentPage := 0 })
        (notifyCenter "c1" (.DOCUMENT_ASSIGNED wDoc 0) wState2.clients) } :=
  ⟨(C5_assign_document wState2 "c1").2.1 wCenter rfl,
   (C5_assign_document wState2 "c1").2.2.1 wCenter "zzz" rfl rfl,
   by
     have h := (C5_assign_document wState2 "c1").2.2.2 wCenter "d1" wDoc rfl rfl
     simpa using h⟩

/-! ### Claim C9: partial update -/

/-- The center after `update_center`: only the supplied fields change. -/
def updatedCenter (center : Center) (newName newColor : Option String) : Center :=
  { center with name := newName.getD center.name, color := newColor.getD center.color }

/-- C9: `update_center` replaces only the supplied `name`/`color`; the
slug, id, assignment, page, connectivity and creation time of the center
are untouched, and centers with a different id are left in place. -/
theorem C9_update_center_frame (st : ServerState) (cid : String) (center : Center)
    (newName newColor : Option String)
    (hc : st.centers.find? (fun c => c.id = cid) = some center) :
    update_center cid newName newColor st =
      .ok { st with
        centers := putCenter (updatedCenter center newName newColor) st.centers
        clients := broadcast (.CENTER_UPDATED (updatedCenter center newName newColor))
          st.clients } ∧
    (updatedCenter center newName newColor).id = center.id ∧
    (updatedCenter center newName newColor).slug = center.slug ∧
    (updatedCenter center newName newColor).assignedDoc = center.assignedDoc ∧
    (updatedCenter center newName newColor).currentPage = center.currentPage ∧
    (updatedCenter center newName newColor).connected = center.connected ∧
    (updatedCenter center newName newColor).createdAt = center.createdAt ∧
    (updatedCenter center newName newColor).name = newName.getD center.name ∧
    (updatedCenter center newName newColor).color = newColor.getD center.color ∧
    (∀ x ∈ st.centers, ¬ x.id = center.id →
      x ∈ putCenter (updatedCenter center newName newColor) st.centers) := by
  refine ⟨?_, rfl, rfl, rfl, rfl, rfl, rfl, rfl, rfl, ?_⟩
  · simp only [update_center, hc, updatedCenter]
  · intro x hx hne
    have hne' : ¬ x.id = (updatedCenter center newName newColor).id := hne
    exact List.mem_map.2 ⟨x, hx, by rw [if_neg hne']⟩

/-- Witness: renaming the assigned center of `wState3` keeps its slug,
assignment and page. -/
theorem C9_update_center_frame_witness :
    update_center "c1" (some "Line B") none wState3 =
      .ok { wState3 with
        centers := putCenter (updatedCenter wCenterAssigned (some "Line B") none)
          wState3.centers
        clients := broadcast
          (.CENTER_UPDATED (updatedCenter wCenterAssigned (some "Line B") none))
          wState3.clients } ∧
    (updatedCenter wCenterAssigned (some "Line B") none).slug = wCenterAssigned.slug ∧
    (updatedCenter wCenterAssigned (some "Line B") none).assignedDoc =
      wCenterAssigned.assignedDoc ∧
    (updatedCenter wCenterAssigned (some "Line B") none).name = "Line B" :=
  ⟨(C9_update_center_frame wState3 "c1" wCenterAssigned (some "Line B") none rfl).1,
   (C9_update_center_frame wState3 "c1" wCenterAssigned (some "Line B") none rfl).2.2.1,
   (C9_update_center_frame wState3 "c1" wCenterAssigned (some "Line B") none rfl).2.2.2.1,
   (C9_update_center_frame wState3 "c1" wCenterAssigned (some "Line B") none
      rfl).2.2.2.2.2.2.2.1⟩

/-! ### Claim C8: upload rejection and cleanup -/

theorem not_mem_fremove (p : String) (fs : List String) : p ∉ fremove p fs := by
  intro h
  have := (List.mem_filter.1 h).2
  simp at this

theorem mem_fremove_fsave (p f : String) (fs : List String) (hf : f ∈ fs)
    (hne : ¬ f = p) : f ∈ fremove p (fsave p fs) := by
  unfold fremove fsave
  by_cases hp : p ∈ fs
  · rw [if_pos hp]
    exact List.mem_filter.2 ⟨hf, by simpa using hne⟩
  · rw [if_neg hp]
    exact List.mem_filter.2 ⟨List.mem_append_left _ hf, by simpa using hne⟩

/-- C8: an upload whose extension is not `.xlsx`/`.xls`/`.docx`/`.doc` is
rejected without touching the state; an accepted upload whose parse fails
removes the just-written file, adds no document, and surfaces the parser's
message. -/
theorem C8_upload_cleanup (ext filepath : String) (pr : Except String (List Page))
    (docId docName origName now : String) (st : ServerState) :
    (ext ∉ allowedExts →
      upload_document ext filepath pr docId docName origName now st =
        (st, some "Only Excel and Word files allowed")) ∧
    (ext ∈ allowedExts → ∀ e, pr = .error e →
      (upload_document ext filepath pr docId docName origName now st).2 =
        some ("Failed to parse file: " ++ e) ∧
      (upload_document ext filepath pr docId docName origName now st).1.documents =
        st.documents ∧
      (upload_document ext filepath pr docId docName origName now st).1.centers =
        st.centers ∧
      filepath ∉ (upload_document ext filepath pr docId docName origName now st).1.files ∧
      (∀ f ∈ st.files, ¬ f = filepath →
        f ∈ (upload_document ext filepath pr docId docName origName now st).1.files)) := by
  constructor
  · intro hext
    simp only [upload_document, if_pos hext]
  · intro hext e hpr
    subst hpr
    simp only [upload_document, if_neg (not_not_intro hext)]
    exact ⟨trivial, trivial, trivial, not_mem_fremove filepath _,
      fun f hf hne => mem_fremove_fsave filepath f st.files hf hne⟩

/-- Witness: a `.txt` upload is rejected with the state unchanged, and a
failing `.docx` parse on `wState2` removes the written file, keeps the
document list, and reports the parser's message. -/
theorem C8_upload_cleanup_witness :
    upload_document ".txt" "/up/g" (.ok []) "d2" "D" "g.txt" "t2" wState2 =
      (wState2, some "Only Excel and Word files allowed") ∧
    (upload_document ".docx" "/up/g" (.error "bad zip") "d2" "D" "g.docx" "t2" wState2).2 =
      some ("Failed to parse file: " ++ "bad zip") ∧
    (upload_document ".docx" "/up/g" (.error "bad zip") "d2" "D" "g.docx" "t2"
      wState2).1.documents = wState2.documents ∧
    "/up/g" ∉ (upload_document ".docx" "/up/g" (.error "bad zip") "d2" "D" "g.docx" "t2"
      wState2).1.files :=
  ⟨(C8_upload_cleanup ".txt" "/up/g" (.ok []) "d2" "D" "g.txt" "t2" wState2).1 (by decide),
   ((C8_upload_cleanup ".docx" "/up/g" (.error "bad zip") "d2" "D" "g.docx" "t2" wState2).2
      (by decide) "bad zip" rfl).1,
   ((C8_upload_cleanup ".docx" "/up/g" (.error "bad zip") "d2" "D" "g.docx" "t2" wState2).2
      (by decide) "bad zip" rfl).2.1,
   ((C8_upload_cleanup ".docx" "/up/g" (.error "bad zip") "d2" "D" "g.docx" "t2" wState2).2
      (by decide) "bad zip" rfl).2.2.2.1⟩

/-! ### Claim C3: document deletion cascade -/

/-- C3: deleting a stored document clears `assignedDoc` and resets
`currentPage` to 0 on exactly the centers that referenced it (all other
centers are unchanged — `clearIfRef` is the identity on them), removes the
document from the store, and delivers `DOCUMENT_REMOVED` to every alive
connection bound to an affected center. -/
theorem C3_delete_document_cascade (st : ServerState) (docId : String) (doc : Doc)
    (st' : ServerState)
    (_hdoc : st.documents.find? (fun d => d.id = docId) = some doc)
    (hop : delete_document docId st = .ok st') :
    st'.centers = st.centers.map (clearIfRef docId) ∧
    st'.documents = st.documents.filter (fun d => d.id != docId) ∧
    (∀ d ∈ st'.documents, ¬ d.id = docId) ∧
    (∀ cl ∈ st.clients, cl.alive = true →
      ∀ c ∈ st.centers, refersTo docId c = true → cl.centerId = some c.id →
        ∃ cl', cl' ∈ st'.clients ∧ cl'.id = cl.id ∧ Msg.DOCUMENT_REMOVED ∈ cl'.inbox) := by
  simp only [delete_document] at hop
  split at hop
  · simp at hop
  · next doc0 hfind =>
    injection hop with hst
    subst hst
    refine ⟨cascadeClear_fst docId st.centers st.clients, rfl, ?_, ?_⟩
    · intro d hd
      have := (List.mem_filter.1 hd).2
      simpa using this
    · intro cl hcl hal c hcmem href hbound
      have hb : boundAlive cl.id c.id st.clients := ⟨cl, hcl, rfl, hal, hbound⟩
      have hmsg := cascadeClear_delivers docId cl.id st.centers st.clients c hcmem href hb
      have hmsg2 := hasMsgAlive_broadcast cl.id .DOCUMENT_REMOVED
        (.DOCUMENT_DELETED docId) _ hmsg
      obtain ⟨cl', hmem, hid, _, hinbox⟩ := hmsg2
      exact ⟨cl', hmem, hid, hinbox⟩

def c3client : Client :=
  { id := "k1", role := some "display", centerId := some "c1", alive := true, inbox := [] }

def c3state : ServerState :=
  { centers := [wCenterAssigned], documents := [wDoc], clients := [c3client],
    files := ["/up/f"] }

def c3clearedCenter : Center :=
  { wCenterAssigned with assignedDoc := none, currentPage := 0 }

def c3clientAfter : Client :=
  { c3client with inbox := [.DOCUMENT_REMOVED, .CENTER_UPDATED c3clearedCenter,
      .DOCUMENT_DELETED "d1"] }

def c3after : ServerState :=
  { centers := [c3clearedCenter], documents := [], clients := [c3clientAfter], files := [] }

/-- Witness: deleting the assigned document of the concrete state clears
the center, empties the store, and the bound alive connection has received
`DOCUMENT_REMOVED`. -/
theorem C3_delete_document_cascade_witness :
    c3after.centers = c3state.centers.map (clearIfRef "d1") ∧
    (∀ d ∈ c3after.documents, ¬ d.id = "d1") ∧
    (∃ cl', cl' ∈ c3after.clients ∧ cl'.id = c3client.id ∧
      Msg.DOCUMENT_REMOVED ∈ cl'.inbox) := by
  have h := C3_delete_document_cascade c3state "d1" wDoc c3after rfl (by rfl)
  exact ⟨h.1, h.2.2.1, h.2.2.2 c3client (by simp [c3state]) rfl wCenterAssigned
    (by simp [c3state]) (by decide) rfl⟩

/-! ### Claim C6: connection binding -/

def c6client : Client :=
  { id := "k", role := some "display", centerId := some "A", alive := true, inbox := [] }

def c6state : ServerState :=
  { centers := [], documents := [], clients := [c6client], files := [] }

/-- Counterexample to C6: a connection already display-bound to center "A"
is rebound by a later registration message — `REGISTER_DASHBOARD` switches
its role and `REGISTER_DISPLAY` switches its bound center, so "no later
registration message changes that binding" is false on the code. -/
theorem C6_rebinding_counterexample :
    (c6state.clients.find? (fun c => c.id = "k")).map (fun c => c.role) =
      some (some "display") ∧
    ((handle_message "k" .REGISTER_DASHBOARD c6state).clients.find?
        (fun c => c.id = "k")).map (fun c => c.role) = some (some "dashboard") ∧
    ((handle_message "k" (.REGISTER_DISPLAY (some "B")) c6state).clients.find?
        (fun c => c.id = "k")).map (fun c => c.centerId) = some (some "B") :=
  ⟨rfl, rfl, rfl⟩

theorem find?_display_cls1 (st : ServerState) (k : String) (rcid : Option String)
    (cl : Client) (hcl : st.clients.find? (fun c => c.id = k) = some cl) :
    (st.clients.map fun c =>
        if c.id = k then { c with role := some "display", centerId := rcid } else c).find?
      (fun c => c.id = k) = some { cl with role := some "display", centerId := rcid } := by
  have hk : cl.id = k := by simpa using List.find?_some hcl
  rw [find?_map_id _ (fun c => by by_cases h : c.id = k <;> simp [h]) k st.clients, hcl]
  simp [hk]

theorem find?_register_display (st : ServerState) (k : String) (rcid : Option String)
    (cl : Client) (hcl : st.clients.find? (fun c => c.id = k) = some cl)
    (halive : cl.alive = true) :
    ∃ cl', (handle_message k (.REGISTER_DISPLAY rcid) st).clients.find?
        (fun c => c.id = k) = some cl' ∧
      cl'.role = some "display" ∧ cl'.centerId = rcid ∧ cl'.alive = true := by
  have hcls1 := find?_display_cls1 st k rcid cl hcl
  cases rcid with
  | none =>
    simp only [handle_message, hcl]
    exact ⟨_, hcls1, rfl, rfl, halive⟩
  | some cid =>
    cases hcen : st.centers.find? (fun c => c.id = cid) with
    | none =>
      simp only [handle_message, hcl, hcen]
      exact ⟨_, hcls1, rfl, rfl, halive⟩
    | some center =>
      obtain ⟨cId, cName, cSlug, cColor, cAd, cPage, cConn, cCreated⟩ := center
      cases cAd with
      | none =>
        simp only [handle_message, hcl, hcen]
        exact ⟨_, find?_broadcast _ k _ _ hcls1 halive, rfl, rfl, halive⟩
      | some ad =>
        cases hdoc : st.documents.find? (fun d => d.id = ad.id) with
        | none =>
          simp only [handle_message, hcl, hcen, hdoc]
          exact ⟨_, find?_broadcast _ k _ _ hcls1 halive, rfl, rfl, halive⟩
        | some doc =>
          simp only [handle_message, hcl, hcen, hdoc]
          refine ⟨sendMsg (.DOCUMENT_ASSIGNED doc cPage)
            (sendMsg (.CENTER_UPDATED
                { id := cId, name := cName, slug := cSlug, color := cColor,
                  assignedDoc := some ad, currentPage := cPage, connected := true,
                  createdAt := cCreated })
              { cl with role := some "display", centerId := some cid }),
            ?_, rfl, rfl, halive⟩
          rw [find?_sendSelf, find?_broadcast _ k _ _ hcls1 halive]
          simp only [halive, Option.map_some']
          rfl

/-- C6 as amended: a new connection starts unbound (`role = none`,
`centerId = none`), a registration message binds it — but the binding is
written unconditionally, so a later registration message rebinds the
connection rather than being ignored: rebinding is not prevented. -/
theorem C6_amended_binding (st : ServerState) (k : String) :
    (∀ alive, st.clients.find? (fun c => c.id = k) = none →
      ∃ inbox0, (ws_connect k alive st).clients.find? (fun c => c.id = k) =
        some { id := k, role := none, centerId := none, alive := alive, inbox := inbox0 }) ∧
    (∀ cl, st.clients.find? (fun c => c.id = k) = some cl →
      (handle_message k .REGISTER_DASHBOARD st).clients.find? (fun c => c.id = k) =
        some { cl with role := some "dashboard" }) ∧
    (∀ cl rcid, st.clients.find? (fun c => c.id = k) = some cl → cl.alive = true →
      ∃ cl', (handle_message k (.REGISTER_DISPLAY rcid) st).clients.find?
          (fun c => c.id = k) = some cl' ∧
        cl'.role = some "display" ∧ cl'.centerId = rcid ∧ cl'.alive = true) := by
  refine ⟨?_, ?_, ?_⟩
  · intro alive hnone
    refine ⟨if alive then [.INIT st.centers (st.documents.map doc_summary)] else [], ?_⟩
    simp only [ws_connect]
    rw [List.find?_append, hnone]
    simp
  · intro cl hcl
    have hk : cl.id = k := by simpa using List.find?_some hcl
    simp only [handle_message, hcl]
    rw [find?_map_id _ (fun c => by by_cases h : c.id = k <;> simp [h]) k st.clients, hcl]
    simp [hk]
  · intro cl rcid hcl halive
    exact find?_register_display st k rcid cl hcl halive

/-- Witness: on the concrete bound state, a dashboard registration rebinds
the display connection, and a fresh connection starts unbound. -/
theorem C6_amended_binding_witness :
    (∃ inbox0, (ws_connect "k2" true c6state).clients.find? (fun c => c.id = "k2") =
      some { id := "k2", role := none, centerId := none, alive := true, inbox := inbox0 }) ∧
    (handle_message "k" .REGISTER_DASHBOARD c6state).clients.find? (fun c => c.id = "k") =
      some { c6client with role := some "dashboard" } ∧
    (∃ cl', (handle_message "k" (.REGISTER_DISPLAY (some "B")) c6state).clients.find?
        (fun c => c.id = "k") = some cl' ∧
      cl'.role = some "display" ∧ cl'.centerId = some "B" ∧ cl'.alive = true) :=
  ⟨(C6_amended_binding c6state "k2").1 true rfl,
   (C6_amended_binding c6state "k").2.1 c6client rfl,
   (C6_amended_binding c6state "k").2.2 c6client (some "B") rfl rfl⟩

/-! ### Claim C7: display registration late-join snapshot -/

theorem register_display_state (st : ServerState) (k cid : String) (cl : Client)
    (center : Center) (ad : AssignedDoc) (doc : Doc)
    (hcl : st.clients.find? (fun c => c.id = k) = some cl)
    (hcen : st.centers.find? (fun c => c.id = cid) = some center)
    (had : center.assignedDoc = some ad)
    (hdoc : st.documents.find? (fun d => d.id = ad.id) = some doc) :
    handle_message k (.REGISTER_DISPLAY (some cid)) st =
      { st with
        centers := putCenter { center with connected := true } st.centers
        clients := sendSelf k (.DOCUMENT_ASSIGNED doc center.currentPage)
          (broadcast (.CENTER_UPDATED { center with connected := true })
            (st.clients.map fun c =>
              if c.id = k then { c with role := some "display", centerId := some cid }
              else c)) } := by
  obtain ⟨cId, cName, cSlug, cColor, cAd, cPage, cConn, cCreated⟩ := center
  have had' : cAd = some ad := had
  subst had'
  simp only [handle_message, hcl, hcen, hdoc]

theorem register_display_found (st : ServerState) (k cid : String) (cl : Client)
    (center : Center) (ad : AssignedDoc) (doc : Doc)
    (hcl : st.clients.find? (fun c => c.id = k) = some cl)
    (halive : cl.alive = true)
    (hcen : st.centers.find? (fun c => c.id = cid) = some center)
    (had : center.assignedDoc = some ad)
    (hdoc : st.documents.find? (fun d => d.id = ad.id) = some doc) :
    (handle_message k (.REGISTER_DISPLAY (some cid)) st).clients.find?
        (fun c => c.id = k) =
      some (sendMsg (.DOCUMENT_ASSIGNED doc center.currentPage)
        (sendMsg (.CENTER_UPDATED { center with connected := true })
          { cl with role := some "display", centerId := some cid })) := by
  rw [register_display_state st k cid cl center ad doc hcl hcen had hdoc]
  rw [find?_sendSelf,
    find?_broadcast _ k _ _ (find?_display_cls1 st k (some cid) cl hcl) halive]
  simp only [halive, Option.map_some']
  rfl

/-- C7: a connection registering as display for a center with an assigned
document immediately receives `DOCUMENT_ASSIGNED` carrying that document
(whose id matches the center's `assignedDoc` reference) and the center's
`currentPage` at that moment; registering a second time delivers exactly
the same snapshot again. -/
theorem C7_display_late_join (st : ServerState) (k cid : String) (cl : Client)
    (center : Center) (ad : AssignedDoc) (doc : Doc)
    (hcl : st.clients.find? (fun c => c.id = k) = some cl)
    (halive : cl.alive = true)
    (hcen : st.centers.find? (fun c => c.id = cid) = some center)
    (had : center.assignedDoc = some ad)
    (hdoc : st.documents.find? (fun d => d.id = ad.id) = some doc) :
    doc.id = ad.id ∧
    ∃ cl1 cl2,
      (handle_message k (.REGISTER_DISPLAY (some cid)) st).clients.find?
        (fun c => c.id = k) = some cl1 ∧
      cl1.inbox = cl.inbox ++ [.CENTER_UPDATED { center with connected := true },
        .DOCUMENT_ASSIGNED doc center.currentPage] ∧
      (handle_message k (.REGISTER_DISPLAY (some cid))
          (handle_message k (.REGISTER_DISPLAY (some cid)) st)).clients.find?
        (fun c => c.id = k) = some cl2 ∧
      cl2.inbox = cl1.inbox ++ [.CENTER_UPDATED { center with connected := true },
        .DOCUMENT_ASSIGNED doc center.currentPage] := by
  have hdid : doc.id = ad.id := by simpa using List.find?_some hdoc
  have hcid : center.id = cid := by simpa using List.find?_some hcen
  have hfound1 := register_display_found st k cid cl center ad doc hcl halive hcen had hdoc
  have hstate1 := register_display_state st k cid cl center ad doc hcl hcen had hdoc
  have hcen1 : (handle_message k (.REGISTER_DISPLAY (some cid)) st).centers.find?
      (fun c => c.id = cid) = some { center with connected := true } := by
    rw [hstate1]
    exact find?_putCenter_pred _ _ cid center hcen hcid
  have hdoc1 : (handle_message k (.REGISTER_DISPLAY (some cid)) st).documents.find?
      (fun d => d.id = ad.id) = some doc := by
    rw [hstate1]
    exact hdoc
  have hfound2 := register_display_found
    (handle_message k (.REGISTER_DISPLAY (some cid)) st) k cid
    (sendMsg (.DOCUMENT_ASSIGNED doc center.currentPage)
      (sendMsg (.CENTER_UPDATED { center with connected := true })
        { cl with role := some "display", centerId := some cid }))
    { center with connected := true } ad doc hfound1 halive hcen1 had hdoc1
  refine ⟨hdid, _, _, hfound1, by simp [sendMsg], hfound2, by simp [sendMsg]⟩

/-- Witness: registering the concrete bound connection for the assigned
center delivers the document snapshot, twice over for two registrations. -/
theorem C7_display_late_join_witness :
    wDoc.id = "d1" ∧
    ∃ cl1 cl2,
      (handle_message "k1" (.REGISTER_DISPLAY (some "c1")) c3state).clients.find?
        (fun c => c.id = "k1") = some cl1 ∧
      cl1.inbox = c3client.inbox ++
        [.CENTER_UPDATED { wCenterAssigned with connected := true },
         .DOCUMENT_ASSIGNED wDoc wCenterAssigned.currentPage] ∧
      (handle_message "k1" (.REGISTER_DISPLAY (some "c1"))
          (handle_message "k1" (.REGISTER_DISPLAY (some "c1")) c3state)).clients.find?
        (fun c => c.id = "k1") = some cl2 ∧
      cl2.inbox = cl1.inbox ++
        [.CENTER_UPDATED { wCenterAssigned with connected := true },
         .DOCUMENT_ASSIGNED wDoc wCenterAssigned.currentPage] :=
  C7_display_late_join c3state "k1" "c1" c3client wCenterAssigned
    { id := "d1", name := "Doc", type := "word" } wDoc rfl rfl rfl rfl rfl
